import Mathlib

/-!
Shallow embedding of `src/Ambient Sound/src/ambient_mixer_enhanced.py`
(class `AmbientSoundMixer` and the dataclasses `Sound` and `Preset`).

Modelling conventions:
* Python floats are modelled as rationals (`ℚ`); the slider callbacks and
  preset files only ever carry small decimal values, and the JSON layer is
  modelled at the parse-tree level, so serialisation of numbers is exact.
* Python dicts are modelled as association lists in insertion order;
  `dict[k] = v` replaces the first binding in place or appends a fresh one,
  exactly as `mset` below does.
* The pygame mixer is modelled explicitly: each channel id (`Nat`) has a
  `ChanState` (what it is playing, with which loop count, and its volume);
  `pygame.mixer.find_channel()` and the possibility that
  `pygame.mixer.Sound(filename)` raises are captured by a `PlayEnv`
  environment handed to the operations that call `play_sound`.
* The GUI (buttons, sliders, message boxes, the combo box) carries no state
  the preset/registry contract depends on and is omitted; the text inputs
  (`preset_name_var`, `category_var`, `tags_var`, `preset_var`) become
  explicit string arguments of the operations that read them.
* The presets file becomes a `FileState`: absent, present-but-unparseable,
  or a parsed JSON document.  `json.dump`/`json.load` are modelled at the
  JSON-tree level.
-/

/-- JSON values, as produced by Python's `json` module. -/
inductive Json where
  | null : Json
  | bool (b : Bool) : Json
  | num (q : ℚ) : Json
  | str (s : String) : Json
  | arr (xs : List Json) : Json
  | obj (kvs : List (String × Json)) : Json

/-- Top-level key list of a JSON object, `none` on any other JSON value. -/
def jsonTopKeys : Json → Option (List String)
  | .obj kvs => some (kvs.map Prod.fst)
  | _ => none

/-- Lookup in an insertion-ordered association list (Python dict read). -/
def mlookup {κ α : Type} [DecidableEq κ] (k : κ) : List (κ × α) → Option α
  | [] => none
  | (k', v) :: rest => if k' = k then some v else mlookup k rest

/-- Write to an insertion-ordered association list (Python `d[k] = v`):
replace the first binding of `k` in place, or append a new one. -/
def mset {κ α : Type} [DecidableEq κ] (k : κ) (v : α) : List (κ × α) → List (κ × α)
  | [] => [(k, v)]
  | (k', v') :: rest => if k' = k then (k', v) :: rest else (k', v') :: mset k v rest

/-- The keys of an association list, in order (Python `dict` iteration order). -/
def mkeys {κ α : Type} (l : List (κ × α)) : List κ := l.map Prod.fst

/-- Effectful map over a list in the `Option` monad: `some` of the image list
when every element maps to `some`, otherwise `none` (models a Python
comprehension in which any element may raise). -/
def omap {α β : Type} (f : α → Option β) : List α → Option (List β)
  | [] => some []
  | x :: xs =>
    match f x, omap f xs with
    | some y, some ys => some (y :: ys)
    | _, _ => none

/-- The default effects dict installed by `Sound.__post_init__`. -/
def defaultEffects : List (String × ℚ) :=
  [("reverb", 0), ("eq_low", 1), ("eq_mid", 1), ("eq_high", 1)]

/-- The `Sound` dataclass (the `button` widget field is GUI-only and omitted;
`channel` is the id of the pygame channel currently assigned to the slot). -/
structure Sound where
  filename : String
  volume : ℚ
  channel : Option Nat
  is_playing : Bool
  effects : List (String × ℚ)
  deriving Repr, DecidableEq

/-- A fresh `Sound(filename)` as built by `initialize_sounds`:
`volume = 1.0`, no channel, not playing, default effects. -/
def Sound.fresh (fn : String) : Sound :=
  { filename := fn, volume := 1, channel := none, is_playing := false,
    effects := defaultEffects }

/-- The per-sound record stored inside a preset's `settings` dict
(`{"volume": ..., "is_playing": ..., "effects": ...}`). -/
structure SoundSettings where
  volume : ℚ
  is_playing : Bool
  effects : List (String × ℚ)
  deriving Repr, DecidableEq

/-- The `Preset` dataclass. -/
structure Preset where
  name : String
  settings : List (String × SoundSettings)
  category : String
  tags : List String
  created_at : String
  deriving Repr, DecidableEq

/-- State of one pygame mixer channel: `playing = some (file, loops)` while a
sound file is playing on it with the given loop count, and its volume. -/
structure ChanState where
  playing : Option (String × Int)
  volume : ℚ
  deriving Repr, DecidableEq

/-- The presets file on disk: missing (`FileNotFoundError`), present but not
valid JSON (`json.JSONDecodeError`), or a parsed JSON document. -/
inductive FileState where
  | missing : FileState
  | invalid : FileState
  | content (j : Json) : FileState

/-- Environment for one `play_sound` call: whether
`pygame.mixer.Sound(filename)` succeeds, and which free channel (if any)
`pygame.mixer.find_channel()` returns. -/
structure PlayEnv where
  loadOk : Bool
  freeChannel : Option Nat

/-- The mutable state of `AmbientSoundMixer`: the sound registry
`self.sounds`, the preset store `self.presets`, the pygame channels, and the
`presets.json` file. -/
structure MixerState where
  sounds : List (String × Sound)
  presets : List (String × Preset)
  channels : Nat → ChanState
  file : FileState

/-- `AmbientSoundMixer.initialize_sounds`: the fixed five-slot registry
(`str(Path("sounds") / "rain.mp3") = "sounds/rain.mp3"` on POSIX). -/
def initial_sounds : List (String × Sound) :=
  [("Rain", Sound.fresh "sounds/rain.mp3"),
   ("Coffee Shop", Sound.fresh "sounds/coffee_shop.mp3"),
   ("White Noise", Sound.fresh "sounds/white_noise.mp3"),
   ("Forest", Sound.fresh "sounds/forest.mp3"),
   ("Ocean", Sound.fresh "sounds/ocean.mp3")]

/-- `AmbientSoundMixer.play_sound`.  An unknown name raises `KeyError` and a
failed `pygame.mixer.Sound` load raises `pygame.error`; both are caught by
the surrounding `except`, leaving the state unchanged.  When
`find_channel()` returns no channel the method warns and returns.  Otherwise
`channel.play(sound_obj, loops=-1)` then `channel.set_volume(sound.volume)`
run, the channel is recorded on the slot and the slot is marked playing. -/
def play_sound (env : PlayEnv) (sound_name : String) (s : MixerState) : MixerState :=
  match mlookup sound_name s.sounds with
  | none => s
  | some sound =>
    if env.loadOk then
      match env.freeChannel with
      | none => s
      | some ch =>
        { s with
          channels := fun n =>
            if n = ch then { playing := some (sound.filename, -1), volume := sound.volume }
            else s.channels n,
          sounds := mset sound_name
            { sound with channel := some ch, is_playing := true } s.sounds }
    else s

/-- `AmbientSoundMixer.stop_sound`: stop the slot's channel when it has one
(`if sound.channel:` — channel objects are always truthy) and clear the
playing flag; the channel id stays recorded on the slot. -/
def stop_sound (sound_name : String) (s : MixerState) : MixerState :=
  match mlookup sound_name s.sounds with
  | none => s
  | some sound =>
    let s1 :=
      match sound.channel with
      | some ch =>
        { s with channels := fun n =>
            if n = ch then { s.channels ch with playing := none } else s.channels n }
      | none => s
    { s1 with sounds := mset sound_name { sound with is_playing := false } s1.sounds }

/-- `AmbientSoundMixer.toggle_sound`. -/
def toggle_sound (env : PlayEnv) (sound_name : String) (s : MixerState) : MixerState :=
  match mlookup sound_name s.sounds with
  | none => s
  | some sound =>
    if sound.is_playing then stop_sound sound_name s else play_sound env sound_name s

/-- `AmbientSoundMixer.update_effect`: write the effect value into the slot's
effects dict, then restart a playing slot (stop followed by play) so the new
effects apply. -/
def update_effect (env : PlayEnv) (sound_name effect : String) (value : ℚ)
    (s : MixerState) : MixerState :=
  match mlookup sound_name s.sounds with
  | none => s
  | some sound =>
    let s1 := { s with
      sounds := mset sound_name { sound with effects := mset effect value sound.effects } s.sounds }
    if sound.is_playing then play_sound env sound_name (stop_sound sound_name s1) else s1

/-- `AmbientSoundMixer.on_volume_change`: store `value / 100` as the slot's
volume and, when the slot has a channel, set that channel's volume too. -/
def on_volume_change (sound_name : String) (value : ℚ) (s : MixerState) : MixerState :=
  match mlookup sound_name s.sounds with
  | none => s
  | some sound =>
    let s1 := { s with
      sounds := mset sound_name { sound with volume := value / 100 } s.sounds }
    match sound.channel with
    | none => s1
    | some ch =>
      { s1 with channels := fun n =>
          if n = ch then { s1.channels ch with volume := value / 100 } else s1.channels n }

/-- The tag list built by `save_preset`:
`[tag.strip() for tag in tags.split(',') if tag.strip()]`. -/
def parseTags (tagsStr : String) : List String :=
  ((tagsStr.splitOn ",").map String.trim).filter (fun t => !t.isEmpty)

/-- The `preset_data` comprehension of `save_preset`: one entry per registry
slot recording its current volume, playing flag and a copy of its effects. -/
def snapshotSettings (sounds : List (String × Sound)) : List (String × SoundSettings) :=
  sounds.map fun p =>
    (p.1, { volume := p.2.volume, is_playing := p.2.is_playing, effects := p.2.effects })

/-- Serialisation of an effects dict by `json.dump`. -/
def effectsToJson (e : List (String × ℚ)) : Json :=
  .obj (e.map fun p => (p.1, .num p.2))

/-- Serialisation of one per-sound settings record by `json.dump`. -/
def settingToJson (st : SoundSettings) : Json :=
  .obj [("volume", .num st.volume), ("is_playing", .bool st.is_playing),
        ("effects", effectsToJson st.effects)]

/-- Serialisation of a preset's `settings` dict by `json.dump`. -/
def settingsToJson (m : List (String × SoundSettings)) : Json :=
  .obj (m.map fun p => (p.1, settingToJson p.2))

/-- Serialisation of `preset.__dict__` by `json.dump`: the dataclass fields
in declaration order. -/
def presetToJson (p : Preset) : Json :=
  .obj [("name", .str p.name), ("settings", settingsToJson p.settings),
        ("category", .str p.category), ("tags", .arr (p.tags.map .str)),
        ("created_at", .str p.created_at)]

/-- Serialisation of the whole `self.presets` dict by `json.dump`. -/
def presetsToJson (m : List (String × Preset)) : Json :=
  .obj (m.map fun p => (p.1, presetToJson p.2))

/-- Read a JSON number. -/
def parseNum : Json → Option ℚ
  | .num q => some q
  | _ => none

/-- Read a JSON string. -/
def parseStr : Json → Option String
  | .str s => some s
  | _ => none

/-- Read a JSON boolean. -/
def parseBool : Json → Option Bool
  | .bool b => some b
  | _ => none

/-- Read an effects dict back from JSON. -/
def parseEffects : Json → Option (List (String × ℚ))
  | .obj kvs => omap (fun p => (parseNum p.2).map fun q => (p.1, q)) kvs
  | _ => none

/-- Read one per-sound settings record back from JSON.  (Python's
`Preset(**d)` stores the parsed `settings` dict without inspecting it; the
typed reading here covers exactly the shape `save_presets_to_file` writes,
which is the only shape the round-trip contract is about.) -/
def parseSetting : Json → Option SoundSettings
  | .obj [("volume", v), ("is_playing", ip), ("effects", e)] => do
    let q ← parseNum v
    let b ← parseBool ip
    let ef ← parseEffects e
    some { volume := q, is_playing := b, effects := ef }
  | _ => none

/-- Read a preset's `settings` dict back from JSON. -/
def parseSettingsMap : Json → Option (List (String × SoundSettings))
  | .obj kvs => omap (fun p => (parseSetting p.2).map fun st => (p.1, st)) kvs
  | _ => none

/-- Read a tag list back from JSON. -/
def parseTagList : Json → Option (List String)
  | .arr xs => omap parseStr xs
  | _ => none

/-- Read one preset record back from JSON, as `Preset(**preset_data)` does:
the record must carry exactly the dataclass's fields (a missing or extra
keyword raises `TypeError`, which `load_presets` does not catch). -/
def parsePreset : Json → Option Preset
  | .obj [("name", n), ("settings", st), ("category", c), ("tags", t),
          ("created_at", ca)] => do
    let n' ← parseStr n
    let st' ← parseSettingsMap st
    let c' ← parseStr c
    let t' ← parseTagList t
    let ca' ← parseStr ca
    some { name := n', settings := st', category := c', tags := t', created_at := ca' }
  | _ => none

/-- Read the whole presets dict back from JSON (`data.items()` requires a
JSON object at top level). -/
def parsePresets : Json → Option (List (String × Preset))
  | .obj kvs => omap (fun p => (parsePreset p.2).map fun pr => (p.1, pr)) kvs
  | _ => none

/-- `AmbientSoundMixer.load_presets`: a missing file or undecodable contents
yield the empty dict; otherwise the parsed presets.  `none` models an
uncaught exception (e.g. `TypeError` from `Preset(**d)` on a foreign file). -/
def load_presets (f : FileState) : Option (List (String × Preset)) :=
  match f with
  | .missing => some []
  | .invalid => some []
  | .content j => parsePresets j

/-- `AmbientSoundMixer.save_presets_to_file`: overwrite `presets.json` with
the serialised preset dict. -/
def save_presets_to_file (s : MixerState) : MixerState :=
  { s with file := .content (presetsToJson s.presets) }

/-- `AmbientSoundMixer.save_preset`, with the GUI inputs (`preset_name_var`,
`category_var`, `tags_var`) and `datetime.now().isoformat()` as arguments.
An empty name only warns; otherwise the current mix is snapshotted into
`self.presets[name]` and the store is written to disk. -/
def save_preset (name category tagsStr now : String) (s : MixerState) : MixerState :=
  if name.isEmpty then s
  else
    let preset : Preset :=
      { name := name, settings := snapshotSettings s.sounds, category := category,
        tags := parseTags tagsStr, created_at := now }
    save_presets_to_file { s with presets := mset name preset s.presets }

/-- One iteration of the `load_preset` loop body: for a `(sound_name,
settings)` entry of the preset, when the name is a registry key, write the
stored volume and a copy of the stored effects to the slot, then play or
stop it according to the stored flag. -/
def applySetting (envf : String → PlayEnv) (s : MixerState)
    (entry : String × SoundSettings) : MixerState :=
  match mlookup entry.1 s.sounds with
  | none => s
  | some sound =>
    let s1 := { s with
      sounds := mset entry.1
        { sound with volume := entry.2.volume, effects := entry.2.effects } s.sounds }
    if entry.2.is_playing then play_sound (envf entry.1) entry.1 s1
    else stop_sound entry.1 s1

/-- `AmbientSoundMixer.load_preset`, with the selected name (`preset_var`)
and a per-sound play environment as arguments.  An empty or unknown name
returns immediately; otherwise the preset's settings are applied in
iteration order. -/
def load_preset (envf : String → PlayEnv) (preset_name : String)
    (s : MixerState) : MixerState :=
  if preset_name.isEmpty then s
  else
    match mlookup preset_name s.presets with
    | none => s
    | some preset => preset.settings.foldl (applySetting envf) s

/-- A concrete sound slot used to instantiate theorems with hypotheses. -/
def testSound : Sound :=
  { filename := "sounds/rain.mp3", volume := 1, channel := some 0,
    is_playing := false, effects := defaultEffects }

/-- A concrete stored preset used to instantiate theorems with hypotheses. -/
def testPreset : Preset :=
  { name := "focus",
    settings := [("Rain", { volume := 1/2, is_playing := true, effects := defaultEffects })],
    category := "work", tags := ["calm"], created_at := "2024-01-01T00:00:00" }

/-- A concrete mixer state used to instantiate theorems with hypotheses. -/
def testState : MixerState :=
  { sounds := [("Rain", testSound)],
    presets := [("focus", testPreset)],
    channels := fun _ => { playing := none, volume := 1 },
    file := .missing }

theorem mlookup_mset_self {κ α : Type} [DecidableEq κ] (k : κ) (v : α)
    (l : List (κ × α)) : mlookup k (mset k v l) = some v := by
  induction l with
  | nil => simp [mset, mlookup]
  | cons hd tl ih =>
    obtain ⟨k', v'⟩ := hd
    by_cases h : k' = k
    · simp [mset, mlookup, h]
    · simp [mset, mlookup, h, ih]

theorem mlookup_mset_ne {κ α : Type} [DecidableEq κ] {k k' : κ} (v : α)
    (l : List (κ × α)) (h : k ≠ k') :
    mlookup k (mset k' v l) = mlookup k l := by
  have h' : ¬ k' = k := fun e => h e.symm
  induction l with
  | nil => simp [mset, mlookup, h']
  | cons hd tl ih =>
    obtain ⟨k'', v''⟩ := hd
    by_cases h2 : k'' = k'
    · simp [mset, mlookup, h2, h']
    · simp [mset, mlookup, h2, ih]

theorem mkeys_mset_of_mem {κ α : Type} [DecidableEq κ] {k : κ} (v : α)
    {l : List (κ × α)} {w : α} (h : mlookup k l = some w) :
    mkeys (mset k v l) = mkeys l := by
  induction l with
  | nil => simp [mlookup] at h
  | cons hd tl ih =>
    obtain ⟨k', v'⟩ := hd
    by_cases h2 : k' = k
    · simp [mset, h2, mkeys]
    · simp [mlookup, h2] at h
      simp [mset, h2, mkeys] at ih ⊢
      exact ih h

theorem mlookup_eq_none_iff {κ α : Type} [DecidableEq κ] (k : κ)
    (l : List (κ × α)) : mlookup k l = none ↔ k ∉ mkeys l := by
  induction l with
  | nil => simp [mlookup, mkeys]
  | cons hd tl ih =>
    obtain ⟨k', v'⟩ := hd
    by_cases h : k' = k
    · subst h
      simp [mlookup, mkeys]
    · simp only [mlookup, mkeys, List.map_cons, List.mem_cons, if_neg h] at ih ⊢
      rw [ih]
      constructor
      · intro hn hor
        rcases hor with he | hm
        · exact h he.symm
        · exact hn hm
      · intro hn hm
        exact hn (Or.inr hm)

theorem parseEffects_effectsToJson (e : List (String × ℚ)) :
    parseEffects (effectsToJson e) = some e := by
  induction e with
  | nil => rfl
  | cons hd tl ih =>
    obtain ⟨k, q⟩ := hd
    simp only [effectsToJson, parseEffects, List.map_cons, omap] at ih ⊢
    rw [ih]
    rfl

theorem parseSetting_settingToJson (st : SoundSettings) :
    parseSetting (settingToJson st) = some st := by
  simp [settingToJson, parseSetting, parseNum, parseBool, parseEffects_effectsToJson]

theorem parseSettingsMap_settingsToJson (m : List (String × SoundSettings)) :
    parseSettingsMap (settingsToJson m) = some m := by
  induction m with
  | nil => rfl
  | cons hd tl ih =>
    obtain ⟨k, st⟩ := hd
    simp only [settingsToJson, parseSettingsMap, List.map_cons] at ih ⊢
    simp [omap, parseSetting_settingToJson, ih]

theorem parseTagList_strings (tags : List String) :
    parseTagList (.arr (tags.map .str)) = some tags := by
  induction tags with
  | nil => rfl
  | cons hd tl ih =>
    simp only [parseTagList, List.map_cons] at ih ⊢
    simp [omap, parseStr, ih]

theorem parsePreset_presetToJson (p : Preset) :
    parsePreset (presetToJson p) = some p := by
  simp [presetToJson, parsePreset, parseStr, parseSettingsMap_settingsToJson,
    parseTagList_strings]

theorem parsePresets_presetsToJson (m : List (String × Preset)) :
    parsePresets (presetsToJson m) = some m := by
  induction m with
  | nil => rfl
  | cons hd tl ih =>
    obtain ⟨k, p⟩ := hd
    simp only [presetsToJson, parsePresets, List.map_cons] at ih ⊢
    simp [omap, parsePreset_presetToJson, ih]

/-- C1: writing the in-memory presets map with `save_presets_to_file` and
reading the file back with `load_presets` yields exactly the original map:
same preset names in the same order, and for each name a preset with equal
`name`, `settings`, `category`, `tags` and `created_at` fields. -/
theorem presets_save_load_roundtrip (s : MixerState) :
    load_presets (save_presets_to_file s).file = some s.presets := by
  simp [save_presets_to_file, load_presets, parsePresets_presetsToJson]

/-- C5: the persisted presets file is a single flat JSON object keyed by the
preset names, and each preset serialises to a record with exactly the fields
`name`, `settings`, `category`, `tags`, `created_at` — no preset record nests
another preset map. -/
theorem presets_file_flat_format (s : MixerState) :
    (save_presets_to_file s).file
      = .content (.obj (s.presets.map fun p => (p.1, presetToJson p.2)))
    ∧ ∀ p : Preset, jsonTopKeys (presetToJson p)
        = some ["name", "settings", "category", "tags", "created_at"] :=
  ⟨rfl, fun _ => rfl⟩

/-- C9: `load_presets` returns the empty presets map both when the presets
file is missing (`FileNotFoundError`) and when its contents are not valid
JSON (`json.JSONDecodeError`); neither case raises. -/
theorem load_presets_failure_fallback :
    load_presets .missing = some [] ∧ load_presets .invalid = some [] :=
  ⟨rfl, rfl⟩

theorem play_sound_presets (env : PlayEnv) (nm : String) (s : MixerState) :
    (play_sound env nm s).presets = s.presets := by
  cases hm : mlookup nm s.sounds with
  | none => simp [play_sound, hm]
  | some sound =>
    cases hl : env.loadOk <;> cases hc : env.freeChannel <;>
      simp [play_sound, hm, hl, hc]

theorem play_sound_file (env : PlayEnv) (nm : String) (s : MixerState) :
    (play_sound env nm s).file = s.file := by
  cases hm : mlookup nm s.sounds with
  | none => simp [play_sound, hm]
  | some sound =>
    cases hl : env.loadOk <;> cases hc : env.freeChannel <;>
      simp [play_sound, hm, hl, hc]

theorem stop_sound_presets (nm : String) (s : MixerState) :
    (stop_sound nm s).presets = s.presets := by
  cases hm : mlookup nm s.sounds with
  | none => simp [stop_sound, hm]
  | some sound =>
    cases hc : sound.channel <;> simp [stop_sound, hm, hc]

theorem stop_sound_file (nm : String) (s : MixerState) :
    (stop_sound nm s).file = s.file := by
  cases hm : mlookup nm s.sounds with
  | none => simp [stop_sound, hm]
  | some sound =>
    cases hc : sound.channel <;> simp [stop_sound, hm, hc]

theorem play_sound_keys (env : PlayEnv) (nm : String) (s : MixerState) :
    mkeys (play_sound env nm s).sounds = mkeys s.sounds := by
  cases hm : mlookup nm s.sounds with
  | none => simp [play_sound, hm]
  | some sound =>
    cases hl : env.loadOk <;> cases hc : env.freeChannel <;>
      simp [play_sound, hm, hl, hc, mkeys_mset_of_mem _ hm]

theorem stop_sound_keys (nm : String) (s : MixerState) :
    mkeys (stop_sound nm s).sounds = mkeys s.sounds := by
  cases hm : mlookup nm s.sounds with
  | none => simp [stop_sound, hm]
  | some sound =>
    cases hc : sound.channel <;>
      simp [stop_sound, hm, hc, mkeys_mset_of_mem _ hm]

theorem play_sound_sounds_ne (env : PlayEnv) {nm nm' : String} (s : MixerState)
    (h : nm' ≠ nm) :
    mlookup nm' (play_sound env nm s).sounds = mlookup nm' s.sounds := by
  cases hm : mlookup nm s.sounds with
  | none => simp [play_sound, hm]
  | some sound =>
    cases hl : env.loadOk <;> cases hc : env.freeChannel <;>
      simp [play_sound, hm, hl, hc, mlookup_mset_ne _ _ h]

theorem stop_sound_sounds_ne {nm nm' : String} (s : MixerState) (h : nm' ≠ nm) :
    mlookup nm' (stop_sound nm s).sounds = mlookup nm' s.sounds := by
  cases hm : mlookup nm s.sounds with
  | none => simp [stop_sound, hm]
  | some sound =>
    cases hc : sound.channel <;>
      simp [stop_sound, hm, hc, mlookup_mset_ne _ _ h]

theorem toggle_sound_keys (env : PlayEnv) (nm : String) (s : MixerState) :
    mkeys (toggle_sound env nm s).sounds = mkeys s.sounds := by
  cases hm : mlookup nm s.sounds with
  | none => simp [toggle_sound, hm]
  | some sound =>
    cases hp : sound.is_playing <;>
      simp [toggle_sound, hm, hp, play_sound_keys, stop_sound_keys]

theorem on_volume_change_keys (nm : String) (v : ℚ) (s : MixerState) :
    mkeys (on_volume_change nm v s).sounds = mkeys s.sounds := by
  cases hm : mlookup nm s.sounds with
  | none => simp [on_volume_change, hm]
  | some sound =>
    cases hc : sound.channel <;>
      simp [on_volume_change, hm, hc, mkeys_mset_of_mem _ hm]

theorem update_effect_keys (env : PlayEnv) (nm eff : String) (v : ℚ)
    (s : MixerState) :
    mkeys (update_effect env nm eff v s).sounds = mkeys s.sounds := by
  cases hm : mlookup nm s.sounds with
  | none => simp [update_effect, hm]
  | some sound =>
    cases hp : sound.is_playing <;>
      simp [update_effect, hm, hp, play_sound_keys, stop_sound_keys,
        mkeys_mset_of_mem _ hm]

theorem save_preset_sounds (name category tagsStr now : String) (s : MixerState) :
    (save_preset name category tagsStr now s).sounds = s.sounds := by
  cases hn : name.isEmpty <;> simp [save_preset, save_presets_to_file, hn]

theorem applySetting_keys (envf : String → PlayEnv) (s : MixerState)
    (e : String × SoundSettings) :
    mkeys (applySetting envf s e).sounds = mkeys s.sounds := by
  cases hm : mlookup e.1 s.sounds with
  | none => simp [applySetting, hm]
  | some sound =>
    cases hp : e.2.is_playing <;>
      simp [applySetting, hm, hp, play_sound_keys, stop_sound_keys,
        mkeys_mset_of_mem _ hm]

theorem foldl_applySetting_keys (envf : String → PlayEnv)
    (l : List (String × SoundSettings)) (s : MixerState) :
    mkeys (l.foldl (applySetting envf) s).sounds = mkeys s.sounds := by
  induction l generalizing s with
  | nil => rfl
  | cons hd tl ih =>
    simp only [List.foldl_cons]
    rw [ih, applySetting_keys]

theorem load_preset_keys (envf : String → PlayEnv) (pn : String) (s : MixerState) :
    mkeys (load_preset envf pn s).sounds = mkeys s.sounds := by
  cases hn : pn.isEmpty with
  | true => simp [load_preset, hn]
  | false =>
    cases hm : mlookup pn s.presets with
    | none => simp [load_preset, hn, hm]
    | some preset => simp [load_preset, hn, hm, foldl_applySetting_keys]

/-- C3: the registry created by `initialize_sounds` has exactly the five slot
names "Rain", "Coffee Shop", "White Noise", "Forest", "Ocean", and every
operation — toggle, play, stop, volume change, effect update, preset save,
preset load — leaves the registry's key list (hence its key set) unchanged. -/
theorem registry_slots_fixed :
    mkeys initial_sounds = ["Rain", "Coffee Shop", "White Noise", "Forest", "Ocean"]
    ∧ (∀ env nm s, mkeys (toggle_sound env nm s).sounds = mkeys s.sounds)
    ∧ (∀ env nm s, mkeys (play_sound env nm s).sounds = mkeys s.sounds)
    ∧ (∀ nm s, mkeys (stop_sound nm s).sounds = mkeys s.sounds)
    ∧ (∀ nm v s, mkeys (on_volume_change nm v s).sounds = mkeys s.sounds)
    ∧ (∀ env nm eff v s, mkeys (update_effect env nm eff v s).sounds = mkeys s.sounds)
    ∧ (∀ name category tagsStr now s,
        mkeys (save_preset name category tagsStr now s).sounds = mkeys s.sounds)
    ∧ (∀ envf pn s, mkeys (load_preset envf pn s).sounds = mkeys s.sounds) :=
  ⟨rfl, toggle_sound_keys, play_sound_keys, stop_sound_keys,
   fun nm v s => on_volume_change_keys nm v s,
   fun env nm eff v s => update_effect_keys env nm eff v s,
   fun name category tagsStr now s => by rw [save_preset_sounds],
   load_preset_keys⟩

/-- C8: with an empty preset name, `save_preset` only shows a warning and
returns: the whole mixer state — presets map, presets file, every sound
slot — is unchanged, so no preset is created or overwritten. -/
theorem save_preset_empty_noop (category tagsStr now : String) (s : MixerState) :
    save_preset "" category tagsStr now s = s := by
  have h : "".isEmpty = true := rfl
  simp [save_preset, h]

/-- C10: when the selected preset name is empty, or is not a key of the
in-memory presets map, `load_preset` returns immediately and the whole mixer
state — in particular every slot's volume, effects and playing flag — is
unchanged. -/
theorem load_preset_unknown_noop (envf : String → PlayEnv) (pn : String)
    (s : MixerState) (h : pn.isEmpty = true ∨ mlookup pn s.presets = none) :
    load_preset envf pn s = s := by
  rcases h with h | h
  · simp [load_preset, h]
  · cases hn : pn.isEmpty with
    | true => simp [load_preset, hn]
    | false => simp [load_preset, hn, h]

theorem load_preset_unknown_noop_witness :
    load_preset (fun _ => ⟨true, none⟩) "nosuch" testState = testState :=
  load_preset_unknown_noop (fun _ => ⟨true, none⟩) "nosuch" testState (Or.inr rfl)

/-- C6: whenever `play_sound` runs on a registry slot, the sound file loads,
and `find_channel()` yields a channel, that channel ends up playing the
slot's file with loop count `-1` (indefinite looping), the channel volume is
set to the slot's stored volume, and the slot is marked playing with the
channel recorded on it. -/
theorem play_sound_loops_spec (env : PlayEnv) (nm : String) (s : MixerState)
    (snd : Sound) (ch : Nat)
    (hs : mlookup nm s.sounds = some snd)
    (hload : env.loadOk = true)
    (hch : env.freeChannel = some ch) :
    ((play_sound env nm s).channels ch).playing = some (snd.filename, -1)
    ∧ ((play_sound env nm s).channels ch).volume = snd.volume
    ∧ mlookup nm (play_sound env nm s).sounds
        = some { snd with channel := some ch, is_playing := true } := by
  refine ⟨?_, ?_, ?_⟩ <;> simp [play_sound, hs, hload, hch, mlookup_mset_self]

theorem play_sound_loops_spec_witness :
    ((play_sound ⟨true, some 3⟩ "Rain" testState).channels 3).playing
        = some ("sounds/rain.mp3", -1)
    ∧ ((play_sound ⟨true, some 3⟩ "Rain" testState).channels 3).volume = 1
    ∧ mlookup "Rain" (play_sound ⟨true, some 3⟩ "Rain" testState).sounds
        = some { testSound with channel := some 3, is_playing := true } :=
  play_sound_loops_spec ⟨true, some 3⟩ "Rain" testState testSound 3 rfl rfl rfl

/-- C7: for a registry slot and a slider value `v ∈ [0, 100]`,
`on_volume_change` stores `v / 100` as the slot's volume; when the slot has a
channel that channel's volume becomes `v / 100` while its playback state is
untouched; every other slot's entry (volume, effects, playing flag) is
unchanged, as are the presets map and the file. -/
theorem on_volume_change_spec (nm : String) (v : ℚ) (s : MixerState) (snd : Sound)
    (hs : mlookup nm s.sounds = some snd) (_hv : 0 ≤ v ∧ v ≤ 100) :
    mlookup nm (on_volume_change nm v s).sounds = some { snd with volume := v / 100 }
    ∧ (∀ ch, snd.channel = some ch →
        ((on_volume_change nm v s).channels ch).volume = v / 100
        ∧ ((on_volume_change nm v s).channels ch).playing = (s.channels ch).playing)
    ∧ (∀ nm', nm' ≠ nm →
        mlookup nm' (on_volume_change nm v s).sounds = mlookup nm' s.sounds)
    ∧ (on_volume_change nm v s).presets = s.presets
    ∧ (on_volume_change nm v s).file = s.file := by
  refine ⟨?_, ?_, ?_, ?_, ?_⟩
  · cases hc : snd.channel <;> simp [on_volume_change, hs, hc, mlookup_mset_self]
  · intro ch hch
    refine ⟨?_, ?_⟩ <;> simp [on_volume_change, hs, hch]
  · intro nm' hne
    cases hc : snd.channel <;>
      simp [on_volume_change, hs, hc, mlookup_mset_ne _ _ hne]
  · cases hc : snd.channel <;> simp [on_volume_change, hs, hc]
  · cases hc : snd.channel <;> simp [on_volume_change, hs, hc]

theorem on_volume_change_spec_witness :
    mlookup "Rain" (on_volume_change "Rain" 50 testState).sounds
        = some { testSound with volume := 50 / 100 }
    ∧ ((on_volume_change "Rain" 50 testState).channels 0).volume = 50 / 100 := by
  have h := on_volume_change_spec "Rain" 50 testState testSound rfl
    ⟨by norm_num, by norm_num⟩
  exact ⟨h.1, (h.2.1 0 rfl).1⟩

theorem mlookup_snapshotSettings (sn : String) (l : List (String × Sound)) :
    mlookup sn (snapshotSettings l)
      = (mlookup sn l).map fun snd =>
          { volume := snd.volume, is_playing := snd.is_playing,
            effects := snd.effects } := by
  induction l with
  | nil => rfl
  | cons hd tl ih =>
    obtain ⟨k, snd⟩ := hd
    simp only [snapshotSettings, List.map_cons] at ih ⊢
    by_cases h : k = sn <;> simp [mlookup, h, ih]

theorem update_effect_presets (env : PlayEnv) (nm eff : String) (v : ℚ)
    (s : MixerState) : (update_effect env nm eff v s).presets = s.presets := by
  cases hm : mlookup nm s.sounds with
  | none => simp [update_effect, hm]
  | some sound =>
    cases hp : sound.is_playing <;>
      simp [update_effect, hm, hp, play_sound_presets, stop_sound_presets]

/-- C4: with a non-empty name, `save_preset` stores a preset whose settings
dict has an entry for every registry slot recording that slot's current
volume, playing flag and effects (a copy), and a later `update_effect` on
any sound leaves the stored presets map — hence the saved preset — exactly
as it was. -/
theorem save_preset_snapshot (name category tagsStr now : String) (s : MixerState)
    (h : name.isEmpty = false) :
    (∃ p, mlookup name (save_preset name category tagsStr now s).presets = some p
      ∧ ∀ sn snd, mlookup sn s.sounds = some snd →
          mlookup sn p.settings
            = some { volume := snd.volume, is_playing := snd.is_playing,
                     effects := snd.effects })
    ∧ (∀ env sn eff v,
        (update_effect env sn eff v (save_preset name category tagsStr now s)).presets
          = (save_preset name category tagsStr now s).presets) := by
  constructor
  · have hp : mlookup name (save_preset name category tagsStr now s).presets
        = some { name := name, settings := snapshotSettings s.sounds,
                 category := category, tags := parseTags tagsStr,
                 created_at := now } := by
      simp [save_preset, h, save_presets_to_file, mlookup_mset_self]
    exact ⟨_, hp, fun sn snd hsn => by simp [mlookup_snapshotSettings, hsn]⟩
  · intro env sn eff v
    exact update_effect_presets env sn eff v _

theorem save_preset_snapshot_witness :
    ∃ p, mlookup "p" (save_preset "p" "cat" "" "t0" testState).presets = some p
      ∧ mlookup "Rain" p.settings
          = some { volume := 1, is_playing := false, effects := defaultEffects }
      ∧ (update_effect ⟨true, none⟩ "Rain" "reverb" 1
            (save_preset "p" "cat" "" "t0" testState)).presets
          = (save_preset "p" "cat" "" "t0" testState).presets := by
  obtain ⟨⟨p, hp, hall⟩, hupd⟩ := save_preset_snapshot "p" "cat" "" "t0" testState rfl
  exact ⟨p, hp, hall "Rain" testSound rfl, hupd ⟨true, none⟩ "Rain" "reverb" 1⟩

theorem mlookup_split {κ α : Type} [DecidableEq κ] {k : κ} {l : List (κ × α)}
    {v : α} (h : mlookup k l = some v) :
    ∃ l₁ l₂, l = l₁ ++ (k, v) :: l₂ ∧ ∀ e ∈ l₁, e.1 ≠ k := by
  induction l with
  | nil => simp [mlookup] at h
  | cons hd tl ih =>
    obtain ⟨k', v'⟩ := hd
    by_cases h2 : k' = k
    · subst h2
      simp only [mlookup, if_pos] at h
      cases h
      exact ⟨[], tl, rfl, by simp⟩
    · simp only [mlookup, if_neg h2] at h
      obtain ⟨l₁, l₂, heq, hne⟩ := ih h
      refine ⟨(k', v') :: l₁, l₂, by simp [heq], ?_⟩
      intro e he
      rcases List.mem_cons.mp he with he | he
      · rw [he]; exact h2
      · exact hne e he

theorem applySetting_sounds_ne (envf : String → PlayEnv) (s : MixerState)
    (e : String × SoundSettings) {nm : String} (h : nm ≠ e.1) :
    mlookup nm (applySetting envf s e).sounds = mlookup nm s.sounds := by
  cases hm : mlookup e.1 s.sounds with
  | none => simp [applySetting, hm]
  | some sound =>
    cases hp : e.2.is_playing with
    | true =>
      simp only [applySetting, hm, hp, if_pos]
      rw [play_sound_sounds_ne _ _ h]
      exact mlookup_mset_ne _ _ h
    | false =>
      simp only [applySetting, hm, hp, Bool.false_eq_true, if_neg,
        not_false_eq_true]
      rw [stop_sound_sounds_ne _ h]
      exact mlookup_mset_ne _ _ h

theorem foldl_applySetting_ne (envf : String → PlayEnv)
    (l : List (String × SoundSettings)) {nm : String}
    (h : ∀ e ∈ l, nm ≠ e.1) (s : MixerState) :
    mlookup nm (l.foldl (applySetting envf) s).sounds = mlookup nm s.sounds := by
  induction l generalizing s with
  | nil => rfl
  | cons hd tl ih =>
    simp only [List.foldl_cons]
    rw [ih (fun e he => h e (List.mem_cons_of_mem _ he)),
      applySetting_sounds_ne envf s hd (h hd (List.mem_cons_self _ _))]

theorem applySetting_self (envf : String → PlayEnv) (s : MixerState)
    (sn : String) (st : SoundSettings) (snd : Sound)
    (hs : mlookup sn s.sounds = some snd)
    (hload : (envf sn).loadOk = true)
    (hch : ((envf sn).freeChannel).isSome = true) :
    ∃ snd', mlookup sn (applySetting envf s (sn, st)).sounds = some snd'
      ∧ snd'.volume = st.volume ∧ snd'.effects = st.effects
      ∧ snd'.is_playing = st.is_playing := by
  obtain ⟨ch, hch⟩ := Option.isSome_iff_exists.mp hch
  cases hp : st.is_playing with
  | true =>
    have key : mlookup sn (applySetting envf s (sn, st)).sounds
        = some { snd with volume := st.volume, effects := st.effects, channel := some ch, is_playing := true } := by
      simp [applySetting, hs, hp, play_sound, mlookup_mset_self, hload, hch]
    exact ⟨_, key, rfl, rfl, rfl⟩
  | false =>
    have key : mlookup sn (applySetting envf s (sn, st)).sounds
        = some { snd with volume := st.volume, effects := st.effects, is_playing := false } := by
      cases hc : snd.channel <;>
        simp [applySetting, hs, hp, stop_sound, mlookup_mset_self, hc]
    exact ⟨_, key, rfl, rfl, rfl⟩

/-- C2: applying a stored preset via `load_preset` (with the name non-empty
and in the presets map, the preset's settings dict having distinct keys as
Python dicts do, and — for the playback part — a play environment in which
the sound file loads and a free channel exists) sets, for every sound name
present both in the preset's settings and in the registry, that slot's
volume and effects to the stored values, and leaves the slot playing exactly
when the preset recorded `is_playing` as true; sound names in the preset
that are not registry keys are ignored — they are not added as slots. -/
theorem load_preset_applies (envf : String → PlayEnv) (pn sn : String)
    (s : MixerState) (p : Preset) (st : SoundSettings) (snd : Sound)
    (hpn : pn.isEmpty = false)
    (hp : mlookup pn s.presets = some p)
    (hnd : (mkeys p.settings).Nodup)
    (hst : mlookup sn p.settings = some st)
    (hsnd : mlookup sn s.sounds = some snd)
    (hload : (envf sn).loadOk = true)
    (hch : ((envf sn).freeChannel).isSome = true) :
    (∃ snd', mlookup sn (load_preset envf pn s).sounds = some snd'
      ∧ snd'.volume = st.volume ∧ snd'.effects = st.effects
      ∧ (snd'.is_playing = true ↔ st.is_playing = true))
    ∧ (∀ nm, mlookup nm s.sounds = none →
        mlookup nm (load_preset envf pn s).sounds = none) := by
  constructor
  · obtain ⟨l₁, l₂, heq, hne₁⟩ := mlookup_split hst
    have hne₂ : ∀ e ∈ l₂, sn ≠ e.1 := by
      have h1 : (sn :: l₂.map Prod.fst).Nodup := by
        have h0 := hnd
        rw [heq] at h0
        simp only [mkeys, List.map_append, List.map_cons] at h0
        exact h0.of_append_right
      have hsn2 : sn ∉ l₂.map Prod.fst := (List.nodup_cons.mp h1).1
      intro e he hEq
      exact hsn2 (hEq ▸ List.mem_map_of_mem Prod.fst he)
    have hrun : load_preset envf pn s
        = l₂.foldl (applySetting envf)
            (applySetting envf (l₁.foldl (applySetting envf) s) (sn, st)) := by
      simp [load_preset, hpn, hp, heq]
    have hs₁ : mlookup sn (l₁.foldl (applySetting envf) s).sounds = some snd := by
      rw [foldl_applySetting_ne envf l₁ (fun e he hEq => hne₁ e he hEq.symm) s, hsnd]
    obtain ⟨snd', h1, h2, h3, h4⟩ :=
      applySetting_self envf (l₁.foldl (applySetting envf) s) sn st snd hs₁ hload hch
    refine ⟨snd', ?_, h2, h3, by rw [h4]⟩
    rw [hrun, foldl_applySetting_ne envf l₂ hne₂, h1]
  · intro nm hnone
    rw [mlookup_eq_none_iff] at hnone ⊢
    rw [load_preset_keys]
    exact hnone

theorem load_preset_applies_witness :
    ((mlookup "Rain" (load_preset (fun _ => ⟨true, some 1⟩) "focus" testState).sounds).map
        Sound.volume) = some (1/2)
    ∧ ((mlookup "Rain" (load_preset (fun _ => ⟨true, some 1⟩) "focus" testState).sounds).map
        Sound.effects) = some defaultEffects
    ∧ ((mlookup "Rain" (load_preset (fun _ => ⟨true, some 1⟩) "focus" testState).sounds).map
        Sound.is_playing) = some true
    ∧ mlookup "Ocean" (load_preset (fun _ => ⟨true, some 1⟩) "focus" testState).sounds
        = none := by
  obtain ⟨⟨snd', h1, h2, h3, h4⟩, hnone⟩ :=
    load_preset_applies (fun _ => ⟨true, some 1⟩) "focus" "Rain" testState testPreset
      { volume := 1/2, is_playing := true, effects := defaultEffects } testSound
      rfl rfl (by decide) rfl rfl rfl rfl
  refine ⟨?_, ?_, ?_, hnone "Ocean" rfl⟩
  · rw [h1]; simp [h2]
  · rw [h1]; simp [h3]
  · rw [h1]; simp [h4.mpr rfl]
